import Mathlib

/-!
# Vending-machine API: shallow embedding and verification

A shallow embedding of the vending-machine repository (files `user.py`,
`product.py`, `user_utils.py`, `exceptions.py`).  The two CSV files
(`user_db.csv`, `product_db.csv`) are modelled as two lists of records in a
state `St`; every operation is a pure function from the state (and its
arguments) to a pair of a result (`Except Exc _`, mirroring Python's
raise/return) and the state after all `write_to_csv` calls that actually ran.
A raised exception is modelled together with whatever writes had already been
persisted before it was raised, which is essential: several operations in the
source write before they validate.

Python integer semantics: ints are unbounded (`Int`); `//` and `%` are floor
division and its remainder, which for the positive divisors used here
(the coin denominations and the literal 5) coincide with Lean's `/` = `Int.ediv`
and `%` = `Int.emod` on `Int`.

Exception classes are modelled by the inductive `Exc`.  Where the source uses
`raise X(...) from e` the constructor carries the cause; the three
`UserNotUpdatedException` raise sites have distinct messages, which the
constructor carries verbatim.  A `try ... except Exception as e: raise Y from e`
block is modelled by wrapping any error produced inside the block.

pydantic model construction (`UserModel(**data)`, `ProductModel(**data)`) runs
the field validators; a validator raising `ValueError` yields a collected
`ValidationError` (modelled as `Exc.validationError`), while the `sellerId`
validator of `ProductModel` raises `UserNotFoundException` directly, which
pydantic v1 does not wrap and therefore propagates as such.
-/

namespace VM

/-- Exception classes of `exceptions.py`, plus the Python built-ins that the
source's control flow can surface (`IndexError` from `list(...)[0]` on an
empty selection, `UnboundLocalError` from the unassigned `user_df` in
`deduct_amount`, and pydantic's `ValidationError`).  `userNotUpdated`,
`productNotUpdated` and `productNotCreated` are raised `from e` and carry the
cause; `userNotUpdated` appears with three distinct messages in the source and
carries the message too. -/
inductive Exc where
  | userNotFound
  | userNotBuyer
  | nonAllowedDeposit
  | zeroDeposit
  | productNotFound
  | productAmountUnavailable
  | purchaseError
  | productExists
  | validationError
  | unboundLocalError
  | indexError
  | userNotUpdated (msg : String) (cause : Exc)
  | productNotUpdated (cause : Exc)
  | productNotCreated (cause : Exc)
deriving DecidableEq, Repr

/-- A row of `user_db.csv`, which is also the field set of the pydantic
`UserModel` in `user.py`. -/
structure UserModel where
  id : String
  username : String
  password : String
  deposit : Int
  role : String
deriving DecidableEq, Repr

/-- A row of `product_db.csv`, which is also the field set of the pydantic
`ProductModel` in `product.py`. -/
structure ProductModel where
  productId : String
  productName : String
  cost : Int
  amountAvailable : Int
  sellerId : String
deriving DecidableEq, Repr

/-- The persistent state: the contents of `user_db.csv` and `product_db.csv`. -/
structure St where
  users : List UserModel
  products : List ProductModel
deriving DecidableEq, Repr

/-- Equality of `Except` results is decidable, so concrete runs of the model
can be checked by evaluation. -/
instance {e a : Type} [DecidableEq e] [DecidableEq a] : DecidableEq (Except e a) :=
  fun x y =>
    match x, y with
    | .ok v, .ok w =>
      if h : v = w then isTrue (by rw [h]) else isFalse (by simp [h])
    | .error v, .error w =>
      if h : v = w then isTrue (by rw [h]) else isFalse (by simp [h])
    | .ok _, .error _ => isFalse (by simp)
    | .error _, .ok _ => isFalse (by simp)

/-- Message of the `UserNotUpdatedException` raised by `deposit_amount`. -/
def depositFailMsg : String := "Amount could not be deposited into User account"

/-- Message of the `UserNotUpdatedException` raised by `deduct_amount`. -/
def deductFailMsg : String := "Amount could not be deducted from User account"

/-- Message of the `UserNotUpdatedException` raised by `buy_product`. -/
def buyFailMsg : String := "Product could not be bought. Amount has been reimbursed."

/-- `user_utils.hash_password`: returns the password unchanged. -/
def hash_password (password : String) : String := password

/-- `user_utils.verify_password`. -/
def verify_password (hashed_password normal_password : String) : Bool :=
  hash_password normal_password == hashed_password

/-- The allowed coin denominations, `{5, 10, 20, 50, 100}` in `deposit_amount`. -/
def validDenominations : List Int := [5, 10, 20, 50, 100]

/-- Construction of the pydantic `UserModel` (its four field validators; each
raises `ValueError`, collected into a `ValidationError`). -/
def validateUserModel (u : UserModel) : Except Exc UserModel :=
  if u.id = "" ∨ u.username = "" ∨ u.password = "" ∨ u.deposit < 0 then
    .error .validationError
  else .ok u

/-- Construction of the pydantic `ProductModel`.  The `sellerId_not_found`
validator reads `user_db.csv` and raises `UserNotFoundException`, which
pydantic does not wrap, so it takes effect whenever it runs and fails (it is
skipped when the preceding `empty_sellerId` validator already failed); all
other validators raise `ValueError`, collected into a `ValidationError`. -/
def validateProductModel (st : St) (p : ProductModel) : Except Exc ProductModel :=
  if p.sellerId ≠ "" ∧ ¬ (st.users.map (fun u => u.id)).contains p.sellerId then
    .error .userNotFound
  else if p.productId = "" ∨ p.productName = "" ∨ p.cost % 5 ≠ 0 ∨ p.cost < 0 ∨
      p.amountAvailable < 0 ∨ p.sellerId = "" then
    .error .validationError
  else .ok p

/-- `user.get_user` (the `username` lookup used by `buy_product` and
`create_new_user`): select the first row whose `username` matches; an empty
selection raises `IndexError`, re-raised as `UserNotFoundException`; the row is
returned through `UserModel(**...)`, whose `ValidationError` propagates. -/
def get_user (st : St) (username : String) : Except Exc UserModel :=
  match st.users.find? (fun u => u.username == username) with
  | none => .error .userNotFound
  | some u => validateUserModel u

/-- `product.get_product` (the `productId` lookup used by `buy_product`). -/
def get_product (st : St) (productId : String) : Except Exc ProductModel :=
  match st.products.find? (fun p => p.productId == productId) with
  | none => .error .productNotFound
  | some p => validateProductModel st p

/-- `pd_dataframe.loc[pd_dataframe["username"] == username, ["deposit"]] += delta`:
adds `delta` to the deposit of every row whose username matches. -/
def updateDeposits (users : List UserModel) (username : String) (delta : Int) :
    List UserModel :=
  users.map (fun u =>
    if u.username == username then { u with deposit := u.deposit + delta } else u)

/-- `pd_dataframe.loc[pd_dataframe["productId"] == productId, ["amountAvailable"]] -= n`:
subtracts `n` from the stock of every row whose productId matches. -/
def updateStock (products : List ProductModel) (productId : String) (n : Int) :
    List ProductModel :=
  products.map (fun p =>
    if p.productId == productId then
      { p with amountAvailable := p.amountAvailable - n } else p)

/-- Models `except Exception as e: raise UserNotUpdatedException(msg) from e`
around a block's result. -/
def wrapUserNotUpdated (msg : String) (r : Except Exc UserModel) :
    Except Exc UserModel :=
  match r with
  | .ok u => .ok u
  | .error e => .error (.userNotUpdated msg e)

/-- Models `except Exception as e: raise ProductNotUpdatedException(...) from e`
around a block's result. -/
def wrapProductNotUpdated (r : Except Exc ProductModel) : Except Exc ProductModel :=
  match r with
  | .ok p => .ok p
  | .error e => .error (.productNotUpdated e)

/-- `user.deposit_amount`.  The whole body sits in a `try` whose
`except IndexError` re-raises `UserNotFoundException` and whose
`except Exception as e` re-raises `UserNotUpdatedException from e`; hence the
`UserNotBuyerException` and `NonAllowedDepositException` raised inside the body
surface wrapped in `UserNotUpdatedException`.  `deposit == 0` skips the
denomination check and the mutation entirely and returns the unchanged row. -/
def deposit_amount (st : St) (username : String) (deposit : Int) :
    Except Exc UserModel × St :=
  match st.users.find? (fun u => u.username == username) with
  | none => (.error .userNotFound, st)
  | some u =>
    if u.role ≠ "buyer" then
      (.error (.userNotUpdated depositFailMsg .userNotBuyer), st)
    else if deposit = 0 then
      (wrapUserNotUpdated depositFailMsg (validateUserModel u), st)
    else if validDenominations.contains deposit then
      let users' := updateDeposits st.users username deposit
      let st' : St := { st with users := users' }
      match users'.find? (fun v => v.username == username) with
      | none => (.error .userNotFound, st')
      | some v => (wrapUserNotUpdated depositFailMsg (validateUserModel v), st')
    else
      (.error (.userNotUpdated depositFailMsg .nonAllowedDeposit), st)

/-- `user.deduct_amount`.  Same `try`/`except` shape as `deposit_amount`.
There is no lower-bound check on the resulting deposit: for `amount ≠ 0` the
subtraction is applied and written to `user_db.csv` first, and only the final
`UserModel(**...)` construction can fail (wrapped in `UserNotUpdatedException`)
— after the write.  For `amount == 0` the local `user_df` is never assigned and
the `return` raises `UnboundLocalError`, wrapped likewise. -/
def deduct_amount (st : St) (username : String) (amount : Int) :
    Except Exc UserModel × St :=
  match st.users.find? (fun u => u.username == username) with
  | none => (.error .userNotFound, st)
  | some u =>
    if u.role ≠ "buyer" then
      (.error (.userNotUpdated deductFailMsg .userNotBuyer), st)
    else if amount = 0 then
      (.error (.userNotUpdated deductFailMsg .unboundLocalError), st)
    else
      let users' := updateDeposits st.users username (-amount)
      let st' : St := { st with users := users' }
      match users'.find? (fun v => v.username == username) with
      | none => (.error .userNotFound, st')
      | some v => (wrapUserNotUpdated deductFailMsg (validateUserModel v), st')

/-- `product.take_product`.  The whole body sits in a `try` whose only handler
is `except Exception as e: raise ProductNotUpdatedException(...) from e`: a
missing product surfaces the `IndexError` wrapped, a short stock surfaces the
`PurchaseException` wrapped, and a failing final `ProductModel(**...)`
construction surfaces wrapped — after the decrement was already written. -/
def take_product (st : St) (productId : String) (no_of_products : Int) :
    Except Exc ProductModel × St :=
  match st.products.find? (fun p => p.productId == productId) with
  | none => (.error (.productNotUpdated .indexError), st)
  | some p =>
    if p.amountAvailable < no_of_products then
      (.error (.productNotUpdated .purchaseError), st)
    else
      let products' := updateStock st.products productId no_of_products
      let st' : St := { st with products := products' }
      match products'.find? (fun q => q.productId == productId) with
      | none => (.error (.productNotUpdated .indexError), st')
      | some q => (wrapProductNotUpdated (validateProductModel st' q), st')

/-- The `except Exception as e` handler of `buy_product`'s commit phase:
`deposit_amount(username, cost * no_of_products)` is called to reimburse, then
`UserNotUpdatedException("Product could not be bought. ...") from e` is raised.
If the reimbursement call itself raises, that exception propagates instead. -/
def buyExceptHandler (st : St) (username : String) (amount : Int) (e : Exc) :
    Except Exc (Int × ProductModel × List Int) × St :=
  let r := deposit_amount st username amount
  match r.1 with
  | .error e2 => (.error e2, r.2)
  | .ok _ => (.error (.userNotUpdated buyFailMsg e), r.2)

/-- The change loop inlined in `buy_product` (user.py lines 361-367):
`for coin in [100, 50, 20, 10, 5]: if amount > 0: num = amount // coin;
change += [coin] * num; amount -= coin * num`.  Python's `[coin] * num` is
empty for `num ≤ 0`, hence `List.replicate num.toNat`; at the division the
dividend is guarded positive and the divisor is a positive literal, where
Python's floor division `//` agrees with `Int.ediv` (Lean's `/`). -/
def change_loop : List Int → List Int → Int → List Int × Int
  | [], change, amount => (change, amount)
  | coin :: rest, change, amount =>
    if amount > 0 then
      let num := amount / coin
      change_loop rest (change ++ List.replicate num.toNat coin) (amount - coin * num)
    else
      change_loop rest change amount

/-- The spec's `makeChange`: the change computation of `buy_product`, run on
the full coin list with an empty accumulator. -/
def makeChange (amount : Int) : List Int :=
  (change_loop [100, 50, 20, 10, 5] [] amount).1

/-- `user.buy_product`.  Validation order as in the source: resolve user
(`UserNotFoundException` re-raised as such, anything else propagates), role
`== "seller"` → `UserNotBuyerException`, `deposit == 0` →
`ZeroDepositException`, resolve product, stock (`amountAvailable <
no_of_products` → `ProductAmountUnavailableException`), affordability
(`deposit < cost * no_of_products` → `PurchaseException`); then the commit
phase `deduct_amount`; `take_product`; change loop, all inside a `try` whose
handler is `buyExceptHandler`.  There is no check on `no_of_products` itself. -/
def buy_product (st : St) (username productId : String) (no_of_products : Int) :
    Except Exc (Int × ProductModel × List Int) × St :=
  match get_user st username with
  | .error e => (.error e, st)
  | .ok user_obj =>
    if user_obj.role = "seller" then (.error .userNotBuyer, st)
    else if user_obj.deposit = 0 then (.error .zeroDeposit, st)
    else
      match get_product st productId with
      | .error e => (.error e, st)
      | .ok product_obj =>
        if product_obj.amountAvailable < no_of_products then
          (.error .productAmountUnavailable, st)
        else if user_obj.deposit < product_obj.cost * no_of_products then
          (.error .purchaseError, st)
        else
          let r1 := deduct_amount st user_obj.username
            (product_obj.cost * no_of_products)
          match r1.1 with
          | .error e1 =>
            buyExceptHandler r1.2 user_obj.username
              (product_obj.cost * no_of_products) e1
          | .ok user_obj2 =>
            let r2 := take_product r1.2 product_obj.productId no_of_products
            match r2.1 with
            | .error e2 =>
              buyExceptHandler r2.2 user_obj2.username
                (product_obj.cost * no_of_products) e2
            | .ok product_obj2 =>
              (.ok (product_obj2.cost * no_of_products, product_obj2,
                    makeChange user_obj2.deposit), r2.2)

/-- `user.buy_product` with a failure injected at the stock-decrement step:
identical to `buy_product` except that the `take_product` call raises `fault`
(spec section 8: "a forced failure injected between debit and decrement", and
section 4.4 step 7: "if the decrement step fails for any reason").  The
subsequent control flow is the source's `except` handler, `buyExceptHandler`. -/
def buy_product_faulted (st : St) (username productId : String)
    (no_of_products : Int) (fault : Exc) :
    Except Exc (Int × ProductModel × List Int) × St :=
  match get_user st username with
  | .error e => (.error e, st)
  | .ok user_obj =>
    if user_obj.role = "seller" then (.error .userNotBuyer, st)
    else if user_obj.deposit = 0 then (.error .zeroDeposit, st)
    else
      match get_product st productId with
      | .error e => (.error e, st)
      | .ok product_obj =>
        if product_obj.amountAvailable < no_of_products then
          (.error .productAmountUnavailable, st)
        else if user_obj.deposit < product_obj.cost * no_of_products then
          (.error .purchaseError, st)
        else
          let r1 := deduct_amount st user_obj.username
            (product_obj.cost * no_of_products)
          match r1.1 with
          | .error e1 =>
            buyExceptHandler r1.2 user_obj.username
              (product_obj.cost * no_of_products) e1
          | .ok user_obj2 =>
            buyExceptHandler r1.2 user_obj2.username
              (product_obj.cost * no_of_products) fault

/-- `product.create_new_product` (with the randomly generated `productId`
passed explicitly).  The duplicate check raises `ProductExistsException`
inside the `try`, whose `except Exception as e` re-raises
`ProductNotCreatedException from e`; otherwise the row is appended to
`product_db.csv` and only then is `ProductModel(**data)` constructed — outside
the `try` — so its `ValidationError` (or the sellerId validator's
`UserNotFoundException`) propagates raw, after the record was persisted. -/
def create_new_product (st : St) (productId productName : String)
    (cost amountAvailable : Int) (sellerId : String) :
    Except Exc ProductModel × St :=
  if st.products.any (fun q => q.sellerId == sellerId && q.productName == productName) then
    (.error (.productNotCreated .productExists), st)
  else
    let p : ProductModel := ⟨productId, productName, cost, amountAvailable, sellerId⟩
    let st' : St := { st with products := st.products ++ [p] }
    (validateProductModel st' p, st')

/-! ## Concrete fixtures used by witnesses and counterexamples -/

/-- A buyer with deposit 10. -/
def alice : UserModel := ⟨"uid-alice", "alice", "pw", 10, "buyer"⟩

/-- A seller (deposit 0). -/
def bob : UserModel := ⟨"uid-bob", "bob", "pw", 0, "seller"⟩

/-- A buyer with deposit 20. -/
def carol : UserModel := ⟨"uid-carol", "carol", "pw", 20, "buyer"⟩

/-- A buyer with deposit 0. -/
def dina : UserModel := ⟨"uid-dina", "dina", "pw", 0, "buyer"⟩

/-- A product of bob's costing 5 with stock 500. -/
def apple : ProductModel := ⟨"p1", "apple", 5, 500, "uid-bob"⟩

/-- State holding alice, bob and the apple product. -/
def st0 : St := ⟨[alice, bob], [apple]⟩

/-- State holding carol, bob and the apple product. -/
def stCarol : St := ⟨[carol, bob], [apple]⟩

/-- State holding dina, bob and the apple product. -/
def stDina : St := ⟨[dina, bob], [apple]⟩


/-! ## Helper lemmas -/

/-- `validateUserModel` succeeds (returning the row itself) exactly on rows with
non-empty id, username, password and non-negative deposit. -/
theorem validateUserModel_eq_ok (u : UserModel) (h1 : u.id ≠ "")
    (h2 : u.username ≠ "") (h3 : u.password ≠ "") (h4 : 0 ≤ u.deposit) :
    validateUserModel u = .ok u := by
  unfold validateUserModel
  rw [if_neg]
  push_neg
  exact ⟨h1, h2, h3, by omega⟩

/-- Inversion for a successful `validateUserModel`. -/
theorem validateUserModel_ok_elim {u w : UserModel}
    (h : validateUserModel u = .ok w) :
    w = u ∧ u.id ≠ "" ∧ u.username ≠ "" ∧ u.password ≠ "" ∧ 0 ≤ u.deposit := by
  unfold validateUserModel at h
  split at h
  · exact absurd h (by simp)
  · next hc =>
    push_neg at hc
    cases h
    exact ⟨rfl, hc.1, hc.2.1, hc.2.2.1, by omega⟩

/-- `validateProductModel` succeeds on rows whose fields pass every validator. -/
theorem validateProductModel_eq_ok (st : St) (p : ProductModel)
    (h1 : p.productId ≠ "") (h2 : p.productName ≠ "") (h3 : p.cost % 5 = 0)
    (h4 : 0 ≤ p.cost) (h5 : 0 ≤ p.amountAvailable) (h6 : p.sellerId ≠ "")
    (h7 : (st.users.map (fun u => u.id)).contains p.sellerId = true) :
    validateProductModel st p = .ok p := by
  unfold validateProductModel
  rw [if_neg, if_neg]
  · push_neg
    exact ⟨h1, h2, h3, by omega, by omega, h6⟩
  · rw [h7]
    simp

/-- Inversion for a successful `validateProductModel`. -/
theorem validateProductModel_ok_elim {st : St} {p w : ProductModel}
    (h : validateProductModel st p = .ok w) :
    w = p ∧ p.productId ≠ "" ∧ p.productName ≠ "" ∧ p.cost % 5 = 0 ∧
      0 ≤ p.cost ∧ 0 ≤ p.amountAvailable ∧ p.sellerId ≠ "" ∧
      (st.users.map (fun u => u.id)).contains p.sellerId = true := by
  unfold validateProductModel at h
  split at h
  · exact absurd h (by simp)
  · next hmem =>
    split at h
    · exact absurd h (by simp)
    · next hc =>
      push_neg at hc
      obtain ⟨c1, c2, c3, c4, c5, c6⟩ := hc
      cases h
      refine ⟨rfl, c1, c2, c3, by omega, by omega, c6, ?_⟩
      by_contra hb
      exact hmem ⟨c6, hb⟩

/-- `updateDeposits` commutes with the first-match lookup on the same username. -/
theorem find?_updateDeposits (users : List UserModel) (n : String) (d : Int) :
    (updateDeposits users n d).find? (fun v => v.username == n)
      = (users.find? (fun v => v.username == n)).map
          (fun u => { u with deposit := u.deposit + d }) := by
  induction users with
  | nil => rfl
  | cons u us ih =>
    simp only [updateDeposits, List.map_cons] at ih ⊢
    by_cases h : (u.username == n) = true
    · have hh : (({ u with deposit := u.deposit + d } : UserModel).username == n)
          = true := h
      rw [if_pos h]
      simp only [List.find?_cons, hh, h]
      simp
    · have hf : (u.username == n) = false := by simpa using h
      rw [if_neg h]
      simp only [List.find?_cons, hf]
      exact ih

/-- `updateStock` commutes with the first-match lookup on the same productId. -/
theorem find?_updateStock (products : List ProductModel) (n : String) (k : Int) :
    (updateStock products n k).find? (fun q => q.productId == n)
      = (products.find? (fun q => q.productId == n)).map
          (fun p => { p with amountAvailable := p.amountAvailable - k }) := by
  induction products with
  | nil => rfl
  | cons p ps ih =>
    simp only [updateStock, List.map_cons] at ih ⊢
    by_cases h : (p.productId == n) = true
    · have hh : (({ p with amountAvailable := p.amountAvailable - k }
          : ProductModel).productId == n) = true := h
      rw [if_pos h]
      simp only [List.find?_cons, hh, h]
      simp
    · have hf : (p.productId == n) = false := by simpa using h
      rw [if_neg h]
      simp only [List.find?_cons, hf]
      exact ih

/-- `updateDeposits` does not change the set of user ids. -/
theorem map_id_updateDeposits (users : List UserModel) (n : String) (d : Int) :
    (updateDeposits users n d).map (fun u => u.id) = users.map (fun u => u.id) := by
  unfold updateDeposits
  rw [List.map_map]
  refine List.map_congr_left ?_
  intro a _
  by_cases ha : a.username = n <;> simp [ha]

/-- The `except` handler of `buy_product` never produces a success. -/
theorem buyExceptHandler_ne_ok (st : St) (n : String) (a : Int) (e : Exc)
    (r : Int × ProductModel × List Int) (s' : St) :
    buyExceptHandler st n a e ≠ (.ok r, s') := by
  unfold buyExceptHandler
  rcases h : (deposit_amount st n a).1 with e2 | u <;> simp [h]

/-! ## Claim theorems -/

/-- Claim C1 (refuted by the code; evidence at the failing input): with buyer
carol (deposit 20) and product apple (cost 5), a purchase of quantity 3 whose
stock decrement fails after a successful debit of 15 does NOT re-credit the
buyer: the reimbursement call is `deposit_amount`, which rejects 15 as a
non-allowed coin, so carol is left at deposit 5 (not restored to 20) and the
surfaced error is the `UserNotUpdatedException` of `deposit_amount` wrapping
`NonAllowedDepositException` — not the purchase-level `UserNotUpdatedException`
("PurchaseFailed") wrapping the decrement's cause. -/
theorem C1_reimbursement_not_guaranteed :
    buy_product_faulted stCarol "carol" "p1" 3 (.productNotUpdated .purchaseError)
      = (.error (.userNotUpdated depositFailMsg .nonAllowedDeposit),
         ⟨[⟨"uid-carol", "carol", "pw", 5, "buyer"⟩, bob], [apple]⟩)
    ∧ carol.deposit = 20
    ∧ Exc.userNotUpdated depositFailMsg .nonAllowedDeposit
        ≠ Exc.userNotUpdated buyFailMsg (.productNotUpdated .purchaseError) := by
  refine ⟨by decide, by decide, by decide⟩

/-- Claim C3 (refuted by the code; evidence at the failing input): deducting 50
from alice's deposit of 10 does not fail cleanly: the subtraction is applied
and written to `user_db.csv` first (stored deposit becomes -40), and only then
does the `UserModel` construction fail, surfacing `UserNotUpdatedException`
wrapping the `ValidationError` — there is no `InsufficientDeposit`-style guard
and the stored deposit is driven below zero. -/
theorem C3_deduct_persists_negative :
    deduct_amount st0 "alice" 50
      = (.error (.userNotUpdated deductFailMsg .validationError),
         ⟨[⟨"uid-alice", "alice", "pw", -40, "buyer"⟩, bob], [apple]⟩)
    ∧ alice.deposit = 10 := by
  refine ⟨by decide, by decide⟩

/-- Claim C4 (refuted by the code; evidence at the failing input): `buy_product`
performs no quantity validation.  Buying quantity -1 of apple (cost 5, stock
500) with alice (deposit 10) "succeeds": it returns total spent -5, credits
alice 5 (deposit 10 → 15), increments the stock (500 → 501) and returns change
[10, 5] — instead of failing with an `InvalidQuantity` error and leaving state
unchanged. -/
theorem C4_negative_quantity_mutates :
    buy_product st0 "alice" "p1" (-1)
      = (.ok (-5, ⟨"p1", "apple", 5, 501, "uid-bob"⟩, [10, 5]),
         ⟨[⟨"uid-alice", "alice", "pw", 15, "buyer"⟩, bob],
          [⟨"p1", "apple", 5, 501, "uid-bob"⟩]⟩)
    ∧ alice.deposit = 10 ∧ apple.amountAvailable = 500 := by
  refine ⟨by decide, by decide, by decide⟩

/-- Claim C5 counterexample: the claim asserts `sum (makeChange n) = n` for
every non-negative integer `n`, but at `n = 3` the greedy loop over
denominations 100, 50, 20, 10, 5 returns the empty list, whose sum is 0, not 3. -/
theorem C5_sum_counterexample :
    (0 : Int) ≤ 3 ∧ (makeChange 3).sum ≠ 3 := by
  refine ⟨by decide, by decide⟩

/-- Claim C8 counterexample: depositing amount 0 (which is not a valid
denomination) does NOT fail — `deposit_amount` treats 0 as a silent no-op and
returns the unchanged account; moreover a genuinely invalid amount (3) and a
deposit by the seller bob surface `UserNotUpdatedException` wrapping the
specific cause, not the bare `NonAllowedDepositException` / 
`UserNotBuyerException`, because both are raised inside the `try` whose
`except Exception` re-wraps them. -/
theorem C8_counterexample :
    deposit_amount st0 "alice" 0 = (.ok alice, st0)
    ∧ deposit_amount st0 "alice" 3
        = (.error (.userNotUpdated depositFailMsg .nonAllowedDeposit), st0)
    ∧ Exc.userNotUpdated depositFailMsg .nonAllowedDeposit ≠ Exc.nonAllowedDeposit
    ∧ deposit_amount st0 "bob" 5
        = (.error (.userNotUpdated depositFailMsg .userNotBuyer), st0)
    ∧ Exc.userNotUpdated depositFailMsg .userNotBuyer ≠ Exc.userNotBuyer := by
  refine ⟨by decide, by decide, by decide, by decide, by decide⟩

/-- Claim C9 (refuted by the code; evidence at the failing input): the
`ProductModel` cost validator checks `cost < 0` (although its message says
"cost must be greater than 0"), so a product with cost exactly 0 is accepted
and its record is created; and for a cost that fails validation (3, not a
multiple of 5) the record is appended to `product_db.csv` BEFORE the
`ProductModel(**data)` construction raises, so a record is created even when
creation fails. -/
theorem C9_invalid_cost_not_rejected :
    create_new_product st0 "pX" "banana" 0 100 "uid-bob"
      = (.ok ⟨"pX", "banana", 0, 100, "uid-bob"⟩,
         ⟨[alice, bob], [apple, ⟨"pX", "banana", 0, 100, "uid-bob"⟩]⟩)
    ∧ create_new_product st0 "pY" "cherry" 3 10 "uid-bob"
      = (.error .validationError,
         ⟨[alice, bob], [apple, ⟨"pY", "cherry", 3, 10, "uid-bob"⟩]⟩) := by
  refine ⟨by decide, by decide⟩

/-- Claim C10: `hash_password` is the identity, so the stored "hashed" password
is the plaintext itself, and `verify_password(hash_password(p), q)` holds
exactly when `q = p`. -/
theorem C10_password_identity (p q : String) :
    hash_password p = p ∧ (verify_password (hash_password p) q = true ↔ q = p) := by
  refine ⟨rfl, ?_⟩
  simp [verify_password, hash_password]

/-- Happy path of `deduct_amount`: for a validated buyer and a non-zero amount
leaving a non-negative balance, the deduction is applied and returned. -/
theorem deduct_amount_happy (st : St) (n : String) (a : Int) (u : UserModel)
    (hfind : st.users.find? (fun v => v.username == n) = some u)
    (hid : u.id ≠ "") (husr : u.username ≠ "") (hpw : u.password ≠ "")
    (hrole : u.role = "buyer") (ha : a ≠ 0) (hle : a ≤ u.deposit) :
    deduct_amount st n a
      = (.ok { u with deposit := u.deposit + -a },
         { st with users := updateDeposits st.users n (-a) }) := by
  have hv : validateUserModel { u with deposit := u.deposit + -a }
      = .ok { u with deposit := u.deposit + -a } :=
    validateUserModel_eq_ok _ hid husr hpw (by simp; omega)
  simp only [deduct_amount, hfind]
  rw [if_neg (by simp [hrole]), if_neg ha, find?_updateDeposits, hfind]
  simp only [Option.map_some', hv, wrapUserNotUpdated]

/-- Happy path of `take_product`: for a found, fully valid product row and a
quantity within stock, the decrement is applied and returned. -/
theorem take_product_happy (st : St) (pid : String) (k : Int) (p : ProductModel)
    (hfind : st.products.find? (fun q => q.productId == pid) = some p)
    (h1 : p.productId ≠ "") (h2 : p.productName ≠ "") (h3 : p.cost % 5 = 0)
    (h4 : 0 ≤ p.cost) (h5 : 0 ≤ p.amountAvailable - k) (h6 : p.sellerId ≠ "")
    (h7 : (st.users.map (fun u => u.id)).contains p.sellerId = true)
    (hstock : ¬ (p.amountAvailable < k)) :
    take_product st pid k
      = (.ok { p with amountAvailable := p.amountAvailable - k },
         { st with products := updateStock st.products pid k }) := by
  have hv : validateProductModel { st with products := updateStock st.products pid k }
      { p with amountAvailable := p.amountAvailable - k }
      = .ok { p with amountAvailable := p.amountAvailable - k } :=
    validateProductModel_eq_ok _ _ h1 h2 h3 h4 h5 h6 h7
  simp only [take_product, hfind]
  rw [if_neg hstock, find?_updateStock, hfind]
  simp only [Option.map_some', hv, wrapProductNotUpdated]

/-- Claim C7: a purchase by an existing, well-formed BUYER account whose current
deposit is exactly 0 fails with `ZeroDepositException` (the spec's
`ZeroDeposit`), for every product id and every quantity, leaving the state
untouched — the guard runs before the product is even resolved. -/
theorem C7_zero_deposit_guard (st : St) (un pid : String) (qty : Int)
    (u : UserModel)
    (hfind : st.users.find? (fun v => v.username == un) = some u)
    (hval : validateUserModel u = .ok u)
    (hrole : u.role = "buyer")
    (hdep : u.deposit = 0) :
    buy_product st un pid qty = (.error .zeroDeposit, st) := by
  simp [buy_product, get_user, hfind, hval, hrole, hdep]

/-- Witness for C7: dina is a buyer with deposit 0; her purchase of any
quantity of a non-existent product fails with `ZeroDeposit`. -/
theorem C7_zero_deposit_guard_witness :
    buy_product stDina "dina" "nope" 7 = (.error .zeroDeposit, stDina) :=
  C7_zero_deposit_guard stDina "dina" "nope" 7 dina (by decide) (by decide)
    (by decide) (by decide)

/-- Claim C6: for a resolved buyer (non-seller role, non-zero deposit) and a
resolved valid product, the pre-commit validations fail before any mutation:
a quantity above the stock yields `ProductAmountUnavailableException` (the
spec's `InsufficientStock`), and — when stock suffices — a deposit below
`cost * quantity` yields `PurchaseException` (the spec's `InsufficientFunds`);
in both cases the returned state is exactly the input state. -/
theorem C6_prevalidation_failures (st : St) (un pid : String) (qty : Int)
    (u : UserModel) (p : ProductModel)
    (hfind : st.users.find? (fun v => v.username == un) = some u)
    (hval : validateUserModel u = .ok u)
    (hrole : u.role ≠ "seller")
    (hdep : u.deposit ≠ 0)
    (hpfind : st.products.find? (fun q => q.productId == pid) = some p)
    (hpval : validateProductModel st p = .ok p) :
    (p.amountAvailable < qty →
      buy_product st un pid qty = (.error .productAmountUnavailable, st))
    ∧ (qty ≤ p.amountAvailable → u.deposit < p.cost * qty →
      buy_product st un pid qty = (.error .purchaseError, st)) := by
  constructor
  · intro hstock
    simp [buy_product, get_user, get_product, hfind, hval, hrole, hdep, hpfind,
      hpval, hstock]
  · intro hstock hfunds
    have hns : ¬ (p.amountAvailable < qty) := by omega
    simp [buy_product, get_user, get_product, hfind, hval, hrole, hdep, hpfind,
      hpval, hns, hfunds]

/-- Witness for C6: alice (deposit 10) against apple (cost 5, stock 500):
quantity 501 exceeds stock; quantity 3 exceeds funds (15 > 10).  Both fail
with the named error and an unchanged state. -/
theorem C6_prevalidation_failures_witness :
    buy_product st0 "alice" "p1" 501 = (.error .productAmountUnavailable, st0)
    ∧ buy_product st0 "alice" "p1" 3 = (.error .purchaseError, st0) :=
  ⟨(C6_prevalidation_failures st0 "alice" "p1" 501 alice apple (by decide)
      (by decide) (by decide) (by decide) (by decide) (by decide)).1 (by decide),
   (C6_prevalidation_failures st0 "alice" "p1" 3 alice apple (by decide)
      (by decide) (by decide) (by decide) (by decide) (by decide)).2 (by decide)
      (by decide)⟩

/-- Claim C8 as amended: for an existing, well-formed account — (i) a BUYER
depositing a non-zero amount outside the denomination set fails with
`UserNotUpdatedException` wrapping `NonAllowedDepositException` and the state
is unchanged; (ii) a BUYER depositing 0 gets a silent no-op success; (iii) a
BUYER depositing a valid denomination has exactly that amount added to the
stored balance (so deposits accumulate exactly: 5 then 10 then 20 on a zero
balance yields 35); (iv) a SELLER depositing anything fails with
`UserNotUpdatedException` wrapping `UserNotBuyerException`, state unchanged. -/
theorem C8_deposit_amended (st : St) (un : String) (amount : Int) (u : UserModel)
    (hfind : st.users.find? (fun v => v.username == un) = some u)
    (hval : validateUserModel u = .ok u) :
    (u.role = "buyer" → amount ≠ 0 → validDenominations.contains amount = false →
      deposit_amount st un amount
        = (.error (.userNotUpdated depositFailMsg .nonAllowedDeposit), st))
    ∧ (u.role = "buyer" → amount = 0 →
      deposit_amount st un amount = (.ok u, st))
    ∧ (u.role = "buyer" → validDenominations.contains amount = true →
      deposit_amount st un amount
        = (.ok { u with deposit := u.deposit + amount },
           { st with users := updateDeposits st.users un amount }))
    ∧ (u.role = "seller" →
      deposit_amount st un amount
        = (.error (.userNotUpdated depositFailMsg .userNotBuyer), st))
    ∧ (deposit_amount (deposit_amount (deposit_amount stDina "dina" 5).2
        "dina" 10).2 "dina" 20).1
        = .ok ⟨"uid-dina", "dina", "pw", 35, "buyer"⟩ := by
  obtain ⟨-, hid, husr, hpw, hdep⟩ := validateUserModel_ok_elim hval
  refine ⟨?_, ?_, ?_, ?_, by decide⟩
  · intro hrole hne hcont
    simp only [deposit_amount, hfind]
    rw [if_neg (by simp [hrole]), if_neg hne, if_neg (by simpa using hcont)]
  · intro hrole h0
    simp only [deposit_amount, hfind]
    rw [if_neg (by simp [hrole]), if_pos h0]
    simp only [hval, wrapUserNotUpdated]
  · intro hrole hcont
    have hmem : amount = 5 ∨ amount = 10 ∨ amount = 20 ∨ amount = 50 ∨
        amount = 100 := by
      simpa [validDenominations] using hcont
    have hne : amount ≠ 0 := by omega
    have hv : validateUserModel { u with deposit := u.deposit + amount }
        = .ok { u with deposit := u.deposit + amount } :=
      validateUserModel_eq_ok _ hid husr hpw (by simp; omega)
    simp only [deposit_amount, hfind]
    rw [if_neg (by simp [hrole]), if_neg hne, if_pos hcont,
      find?_updateDeposits, hfind]
    simp only [Option.map_some', hv, wrapUserNotUpdated]
  · intro hrole
    simp only [deposit_amount, hfind]
    rw [if_pos (by simp [hrole])]

/-- Witness for C8: alice (a buyer with deposit 10) deposits the valid coin 5
and her stored balance becomes exactly 15. -/
theorem C8_deposit_amended_witness :
    deposit_amount st0 "alice" 5
      = (.ok { alice with deposit := alice.deposit + 5 },
         { st0 with users := updateDeposits st0.users "alice" 5 }) :=
  (C8_deposit_amended st0 "alice" 5 alice (by decide) (by decide)).2.2.1
    (by decide) (by decide)

/-- Loop invariant of the change loop: for a non-negative amount and positive
coins, the coins emitted so far account exactly for the amount consumed, and
the remaining amount stays non-negative. -/
theorem change_loop_sum_invariant (coins : List Int) :
    ∀ (change : List Int) (amount : Int), 0 ≤ amount → (∀ c ∈ coins, 0 < c) →
    (change_loop coins change amount).1.sum
        = change.sum + amount - (change_loop coins change amount).2
    ∧ 0 ≤ (change_loop coins change amount).2 := by
  induction coins with
  | nil =>
    intro ch a ha _
    simp only [change_loop]
    exact ⟨by omega, ha⟩
  | cons c cs ih =>
    intro ch a ha hpos
    have hc : 0 < c := hpos c (List.mem_cons_self c cs)
    have hcs : ∀ x ∈ cs, 0 < x := fun x hx => hpos x (List.mem_cons_of_mem c hx)
    by_cases hgt : a > 0
    · simp only [change_loop, if_pos hgt]
      have hnum : 0 ≤ a / c := Int.ediv_nonneg ha hc.le
      have ha' : 0 ≤ a - c * (a / c) := by
        have hm := Int.emod_nonneg a (by omega : c ≠ 0)
        rw [Int.emod_def] at hm
        exact hm
      obtain ⟨hs, hr⟩ := ih (ch ++ List.replicate (a / c).toNat c)
        (a - c * (a / c)) ha' hcs
      refine ⟨?_, hr⟩
      rw [hs, List.sum_append, List.sum_replicate, nsmul_eq_mul,
        Int.toNat_of_nonneg hnum]
      ring
    · simp only [change_loop, if_neg hgt]
      exact ih ch a ha hcs

/-- When every coin is a multiple of 5, the change loop removes a multiple of 5
from the amount. -/
theorem change_loop_sub_dvd (coins : List Int) :
    ∀ (change : List Int) (amount : Int), (∀ c ∈ coins, (5:Int) ∣ c) →
    (5:Int) ∣ (amount - (change_loop coins change amount).2) := by
  induction coins with
  | nil =>
    intro ch a _
    simp [change_loop]
  | cons c cs ih =>
    intro ch a hdvd
    have hc : (5:Int) ∣ c := hdvd c (List.mem_cons_self c cs)
    have hcs : ∀ x ∈ cs, (5:Int) ∣ x := fun x hx => hdvd x (List.mem_cons_of_mem c hx)
    by_cases hgt : a > 0
    · simp only [change_loop, if_pos hgt]
      have h1 := ih (ch ++ List.replicate (a / c).toNat c) (a - c * (a / c)) hcs
      have h2 : (5:Int) ∣ c * (a / c) := hc.mul_right _
      have h3 : a - (change_loop cs (ch ++ List.replicate (a / c).toNat c)
            (a - c * (a / c))).2
          = c * (a / c) + ((a - c * (a / c))
              - (change_loop cs (ch ++ List.replicate (a / c).toNat c)
                  (a - c * (a / c))).2) := by ring
      rw [h3]
      exact dvd_add h2 h1
    · simp only [change_loop, if_neg hgt]
      exact ih ch a hcs

/-- The change loop processes its coin list sequentially. -/
theorem change_loop_append (xs ys : List Int) :
    ∀ (change : List Int) (amount : Int),
    change_loop (xs ++ ys) change amount
      = change_loop ys (change_loop xs change amount).1
          (change_loop xs change amount).2 := by
  induction xs with
  | nil => intro ch a; rfl
  | cons c cs ih =>
    intro ch a
    by_cases hgt : a > 0
    · simp only [List.cons_append, change_loop, if_pos hgt]
      exact ih _ _
    · simp only [List.cons_append, change_loop, if_neg hgt]
      exact ih _ _

/-- The remainder left by `makeChange` on a non-negative amount is exactly the
amount's residue mod 5. -/
theorem makeChange_rem (n : Int) (hn : 0 ≤ n) :
    (change_loop [100, 50, 20, 10, 5] [] n).2 = n % 5 := by
  have hpos5 : ∀ c ∈ ([100, 50, 20, 10, 5] : List Int), 0 < c := by
    intro c hc; fin_cases hc <;> norm_num
  have hpos4 : ∀ c ∈ ([100, 50, 20, 10] : List Int), 0 < c := by
    intro c hc; fin_cases hc <;> norm_num
  have hdvd5 : ∀ c ∈ ([100, 50, 20, 10, 5] : List Int), (5:Int) ∣ c := by
    intro c hc; fin_cases hc <;> norm_num
  have happ : change_loop [100, 50, 20, 10, 5] [] n
      = change_loop [5] (change_loop [100, 50, 20, 10] [] n).1
          (change_loop [100, 50, 20, 10] [] n).2 :=
    change_loop_append [100, 50, 20, 10] [5] [] n
  have ha4 : 0 ≤ (change_loop [100, 50, 20, 10] [] n).2 :=
    (change_loop_sum_invariant [100, 50, 20, 10] [] n hn hpos4).2
  have hrem0 : 0 ≤ (change_loop [100, 50, 20, 10, 5] [] n).2 :=
    (change_loop_sum_invariant [100, 50, 20, 10, 5] [] n hn hpos5).2
  have hdvd : (5:Int) ∣ (n - (change_loop [100, 50, 20, 10, 5] [] n).2) :=
    change_loop_sub_dvd [100, 50, 20, 10, 5] [] n hdvd5
  have hlt : (change_loop [100, 50, 20, 10, 5] [] n).2 < 5 := by
    rw [happ]
    set ch4 := (change_loop [100, 50, 20, 10] [] n).1
    set a4 := (change_loop [100, 50, 20, 10] [] n).2
    by_cases hgt : a4 > 0
    · simp only [change_loop, if_pos hgt]
      omega
    · simp only [change_loop, if_neg hgt]
      omega
  omega

/-- Claim C5 as amended: the change computation is the greedy loop over
100, 50, 20, 10, 5 largest-to-smallest; `makeChange 0 = []`,
`makeChange 65 = [50, 10, 5]`, and for non-negative `n` the returned coins sum
to `n - n % 5` — hence exactly to `n` whenever `n` is a multiple of 5 (which
every reachable balance is), but NOT for general non-negative `n`. -/
theorem C5_makeChange_amended :
    makeChange 0 = [] ∧ makeChange 65 = [50, 10, 5]
    ∧ (∀ n : Int, 0 ≤ n → (makeChange n).sum = n - n % 5)
    ∧ (∀ n : Int, 0 ≤ n → (5:Int) ∣ n → (makeChange n).sum = n) := by
  have hmain : ∀ n : Int, 0 ≤ n → (makeChange n).sum = n - n % 5 := by
    intro n hn
    have hpos : ∀ c ∈ ([100, 50, 20, 10, 5] : List Int), 0 < c := by
      intro c hc; fin_cases hc <;> norm_num
    have h := (change_loop_sum_invariant [100, 50, 20, 10, 5] [] n hn hpos).1
    unfold makeChange
    rw [h, makeChange_rem n hn]
    simp
  refine ⟨by decide, by decide, hmain, ?_⟩
  intro n hn hd
  rw [hmain n hn]
  omega

/-- Witness for C5 (amended): at n = 65 the greedy change sums back to 65. -/
theorem C5_makeChange_amended_witness :
    (0:Int) ≤ 65 ∧ (5:Int) ∣ 65 ∧ (makeChange 65).sum = 65 :=
  ⟨by decide, by decide,
   C5_makeChange_amended.2.2.2 65 (by decide) (by decide)⟩

/-- Claim C2: every successful `buy_product` run returns exactly
`(cost * quantity, the product snapshot with stock decremented by quantity,
makeChange of the buyer's REMAINING deposit balance)` — the change is computed
from `d - cost * quantity`, not from the amount spent; and the end-to-end
example: alice (balance 10) buys 1 apple (cost 5, stock 500) and gets total
spent 5, stock 499, change [5]. -/
theorem C2_successful_purchase :
    (∀ (st st' : St) (un pid : String) (qty : Int) (u : UserModel)
       (p : ProductModel) (res : Int × ProductModel × List Int),
       st.users.find? (fun v => v.username == un) = some u →
       st.products.find? (fun q => q.productId == pid) = some p →
       buy_product st un pid qty = (.ok res, st') →
       res = (p.cost * qty,
              { p with amountAvailable := p.amountAvailable - qty },
              makeChange (u.deposit - p.cost * qty)))
    ∧ buy_product st0 "alice" "p1" 1
        = (.ok (5, ⟨"p1", "apple", 5, 499, "uid-bob"⟩, [5]),
           ⟨[⟨"uid-alice", "alice", "pw", 5, "buyer"⟩, bob],
            [⟨"p1", "apple", 5, 499, "uid-bob"⟩]⟩) := by
  refine ⟨?_, by decide⟩
  intro st st' un pid qty u p res hu hp h
  have hueq : u.username = un := by
    have hb := List.find?_some hu
    simpa using hb
  have hpeq : p.productId = pid := by
    have hb := List.find?_some hp
    simpa using hb
  subst hueq
  subst hpeq
  simp only [buy_product, get_user, get_product, hu, hp] at h
  rcases hvu : validateUserModel u with evu | w
  · simp [hvu] at h
  · obtain ⟨hw, hid, husr, hpw, hdep⟩ := validateUserModel_ok_elim hvu
    rw [hw] at hvu
    simp only [hvu] at h
    by_cases hrole : u.role = "seller"
    · rw [if_pos hrole] at h
      simp at h
    · rw [if_neg hrole] at h
      by_cases hdz : u.deposit = 0
      · rw [if_pos hdz] at h
        simp at h
      · rw [if_neg hdz] at h
        rcases hvp : validateProductModel st p with evp | wp
        · simp [hvp] at h
        · obtain ⟨hwp, hq1, hq2, hq3, hq4, hq5, hq6, hq7⟩ :=
            validateProductModel_ok_elim hvp
          rw [hwp] at hvp
          simp only [hvp] at h
          by_cases hstock : p.amountAvailable < qty
          · rw [if_pos hstock] at h
            simp at h
          · rw [if_neg hstock] at h
            by_cases hfunds : u.deposit < p.cost * qty
            · rw [if_pos hfunds] at h
              simp at h
            · rw [if_neg hfunds] at h
              by_cases hb : u.role = "buyer"
              · by_cases hzero : p.cost * qty = 0
                · have hd : deduct_amount st u.username (p.cost * qty)
                      = (.error (.userNotUpdated deductFailMsg
                          .unboundLocalError), st) := by
                    simp only [deduct_amount, hu]
                    rw [if_neg (by simp [hb]), if_pos hzero]
                  simp only [hd] at h
                  exact absurd h (buyExceptHandler_ne_ok _ _ _ _ _ _)
                · have hle : p.cost * qty ≤ u.deposit := by omega
                  have hd := deduct_amount_happy st u.username (p.cost * qty) u
                    hu hid husr hpw hb hzero hle
                  simp only [hd] at h
                  have h7 : (((updateDeposits st.users u.username
                        (-(p.cost * qty))).map (fun v => v.id)).contains
                        p.sellerId) = true := by
                    rw [map_id_updateDeposits]
                    exact hq7
                  have ht := take_product_happy
                    { st with
                        users := updateDeposits st.users u.username
                          (-(p.cost * qty)) }
                    p.productId qty p hp hq1 hq2 hq3 hq4 (by omega) hq6 h7 hstock
                  simp only [ht] at h
                  simp only [Prod.mk.injEq, Except.ok.injEq] at h
                  obtain ⟨hres, -⟩ := h
                  rw [← hres]
                  simp [sub_eq_add_neg]
              · have hd : deduct_amount st u.username (p.cost * qty)
                    = (.error (.userNotUpdated deductFailMsg .userNotBuyer),
                       st) := by
                  simp only [deduct_amount, hu]
                  rw [if_pos hb]
                simp only [hd] at h
                exact absurd h (buyExceptHandler_ne_ok _ _ _ _ _ _)

/-- Witness for C2: the general statement applied to the end-to-end example
state (alice, balance 10; apple, cost 5, stock 500; quantity 1). -/
theorem C2_successful_purchase_witness :
    (5, (⟨"p1", "apple", 5, 499, "uid-bob"⟩ : ProductModel), ([5] : List Int))
      = (apple.cost * 1,
         { apple with amountAvailable := apple.amountAvailable - 1 },
         makeChange (alice.deposit - apple.cost * 1)) :=
  C2_successful_purchase.1 st0
    ⟨[⟨"uid-alice", "alice", "pw", 5, "buyer"⟩, bob],
     [⟨"p1", "apple", 5, 499, "uid-bob"⟩]⟩
    "alice" "p1" 1 alice apple
    (5, ⟨"p1", "apple", 5, 499, "uid-bob"⟩, [5])
    (by decide) (by decide) (by decide)

end VM
